import Mathlib

/-
Verification of the "try" package: a Go library for panic/recover based
error handling. Errors are modelled as an inductive type covering the
wrapper nodes produced by github.com/pkg/errors (withStack, withMessage),
the package's own Val capture type, and foreign errors from other sources.
Panic payloads and control flow are modelled explicitly: a computation
either returns or panics with a payload, and each deferred combinator is a
function from the recovered payload (and any sink state) to its result.
-/

namespace Try

/--
Model of a Go error value as seen by this package.

Constructors foreignLeaf, foreignSelf and foreignWrap model errors from
arbitrary sources: `msg` is the string returned by the Error method,
`stackM` records whether the value has a StackTrace method in the sense of
github.com/pkg/errors, and the three variants have, respectively, no cause
(Unwrap yields nil), a self-referential Unwrap (Unwrap yields the receiver
itself), and a genuine cause. `errors.New` of github.com/pkg/errors is
`foreignLeaf msg true`; `errors.New` of the standard library is
`foreignLeaf msg false`.

Constructor withStack models the node created by `errors.WithStack`: it has
a StackTrace method, Unwrap yields the wrapped error, and the Error method
delegates to the wrapped error.

Constructor withMessage models the node created by `errors.WithMessage`:
no StackTrace method, Unwrap yields the cause, and the Error method returns
the message, a colon and a space, then the cause's message.

Constructors valErr and valRaw model the package's `Val` capture type,
holding respectively an error payload and a non-error payload; a non-error
payload is represented by its textual rendering (`fmt.Sprint`), since the
message-formatting facility is external and substitutable.
-/
inductive GoError : Type where
  | foreignLeaf (msg : String) (stackM : Bool)
  | foreignSelf (msg : String) (stackM : Bool)
  | foreignWrap (msg : String) (stackM : Bool) (cause : GoError)
  | withStack (cause : GoError)
  | withMessage (msg : String) (cause : GoError)
  | valErr (e : GoError)
  | valRaw (text : String)
  deriving DecidableEq, Repr

/-- Result of calling the Error method: the rendered message of the error. -/
def errorMsg : GoError → String
  | .foreignLeaf msg _ => msg
  | .foreignSelf msg _ => msg
  | .foreignWrap msg _ _ => msg
  | .withStack c => errorMsg c
  | .withMessage msg c => msg ++ ": " ++ errorMsg c
  | .valErr e => errorMsg e
  | .valRaw text => text

/-- True if the node itself has a StackTrace method, i.e. carries a trace
directly (the hidden interface checked by HasStack). -/
def hasStackMethod : GoError → Bool
  | .foreignLeaf _ s => s
  | .foreignSelf _ s => s
  | .foreignWrap _ s _ => s
  | .withStack _ => true
  | .withMessage _ _ => false
  | .valErr _ => false
  | .valRaw _ => false

/--
Model of the loop in HasStack (try_util.go): walk the error, returning true
as soon as a node with a StackTrace method is found; stop with false when
Unwrap yields nil or yields the receiver itself. Each case checks the
StackTrace method first, then follows Unwrap; a self-referential Unwrap
terminates the walk.
-/
def hasStack : GoError → Bool
  | .foreignLeaf _ s => s
  | .foreignSelf _ s => s
  | .foreignWrap _ s c => s || hasStack c
  | .withStack _ => true
  | .withMessage _ c => hasStack c
  | .valErr e => hasStack e
  | .valRaw _ => false

/-- Number of traced links in the cause chain, walking the same links as
hasStack: counts every node with a StackTrace method along the chain. -/
def traceCount : GoError → Nat
  | .foreignLeaf _ s => if s then 1 else 0
  | .foreignSelf _ s => if s then 1 else 0
  | .foreignWrap _ s c => (if s then 1 else 0) + traceCount c
  | .withStack c => 1 + traceCount c
  | .withMessage _ c => traceCount c
  | .valErr e => traceCount e
  | .valRaw _ => 0

/-- Cause chain of an error: the node itself followed by the chain of its
cause, with a self-referential Unwrap treated as chain termination. -/
def chain : GoError → List GoError
  | .foreignLeaf msg s => [.foreignLeaf msg s]
  | .foreignSelf msg s => [.foreignSelf msg s]
  | .foreignWrap msg s c => .foreignWrap msg s c :: chain c
  | .withStack c => .withStack c :: chain c
  | .withMessage msg c => .withMessage msg c :: chain c
  | .valErr e => .valErr e :: chain e
  | .valRaw text => [.valRaw text]

/--
Model of a Go panic payload, an arbitrary value passed to panic and later
returned by recover. Case nil is the absence of a payload (recover
returning nil); case err is a payload that type-asserts to the error
interface; case raw is a non-nil non-error payload, represented by its
textual rendering.
-/
inductive Payload : Type where
  | nil
  | err (e : GoError)
  | raw (text : String)
  deriving DecidableEq, Repr

/-- True when the payload is the nil payload. -/
def Payload.isNil : Payload → Bool
  | .nil => true
  | _ => false

/-- Outcome of running a Go computation: a normal return carrying a value,
or a panic carrying a payload. -/
inductive Outcome (α : Type) : Type where
  | ret (a : α)
  | panicked (p : Payload)
  deriving DecidableEq, Repr

/-- Payload observed by recover in a function deferred around a body with
the given outcome: nil when the body returned normally. -/
def payloadOf : Outcome Unit → Payload
  | .ret _ => .nil
  | .panicked p => p

/-- Discard the returned value of an outcome, keeping normal return versus
panic and the panic payload. -/
def outcomeUnit {α : Type} : Outcome α → Outcome Unit
  | .ret _ => .ret ()
  | .panicked p => .panicked p

/-- Model of the guarded call `if fun != nil { fun() }`: a nil function
value is skipped, giving a normal return. -/
def runBody : Option (Outcome Unit) → Outcome Unit
  | none => .ret ()
  | some o => o

/-- HasStack of try_util.go on a nilable error: false on nil, else the
chain walk. -/
def HasStack : Option GoError → Bool
  | none => false
  | some e => hasStack e

/-- Model of `errors.WithStack` of github.com/pkg/errors: nil stays nil,
otherwise a new withStack node wrapping the error. -/
def errorsWithStack : Option GoError → Option GoError
  | none => none
  | some e => some (.withStack e)

/-- Model of `errors.WithMessage` of github.com/pkg/errors: nil stays nil,
otherwise a new withMessage node wrapping the error. -/
def errorsWithMessage : Option GoError → String → Option GoError
  | none, _ => none
  | some e, msg => some (.withMessage msg e)

/-- WithStack of try_util.go on a non-nil error: wraps with a new stack
node unless the chain already has one. -/
def withStackE (e : GoError) : GoError :=
  if hasStack e then e else .withStack e

/-- WithStack of try_util.go: `if !HasStack(err) { return errors.WithStack(err) };
return err`. On nil both branches yield nil, so the nilable version is the
none-preserving lift of withStackE. -/
def WithStack (err : Option GoError) : Option GoError :=
  if !HasStack err then errorsWithStack err else err

/--
Err of try_util.go, the classifier: nil payload yields nil; a payload that
is an error is returned through WithStack (idempotent trace attachment); a
non-error payload is wrapped in Val and unconditionally given a stack via
`errors.WithStack`.
-/
def Err : Payload → Option GoError
  | .nil => none
  | .err e => WithStack (some e)
  | .raw text => errorsWithStack (some (.valRaw text))

/-- To of try_to.go: a nil error is a no-op, a non-nil error panics with
WithStack applied to it. -/
def To (err : Option GoError) : Outcome Unit :=
  match err with
  | none => .ret ()
  | some e => .panicked (.err (withStackE e))

/-- Rec of try_defer.go as a function of the recovered payload and the
current sink value: classify the payload; on a non-nil result overwrite the
sink, otherwise leave it unchanged. -/
def Rec (p : Payload) (sink : Option GoError) : Option GoError :=
  match Err p with
  | none => sink
  | some e => some e

/-- Catch of try_catch.go: run the (possibly nil) function with `defer
Rec` around it on a sink that starts at nil, and return the final sink.
Any panic of the body is consumed by the recover inside Rec. -/
def Catch (f : Option (Outcome Unit)) : Option GoError :=
  Rec (payloadOf (runBody f)) none

/-- Result of running a deferred boundary handler that owns a sink: the
final sink value, and the payload of the panic escaping the handler, if
any. -/
structure RecResult : Type where
  sink : Option GoError
  escape : Option Payload
  deriving DecidableEq, Repr

/-- RecOnly of try_defer.go: classify the recovered payload; on a non-nil
error, write it to the sink, then return normally when the test accepts it
and re-panic with the error otherwise (also when the test function is
nil). -/
def RecOnly (test : Option (GoError → Bool)) (p : Payload) (sink : Option GoError) :
    RecResult :=
  match Err p with
  | none => ⟨sink, none⟩
  | some e =>
      ⟨some e,
        match test with
        | some t => if t e then none else some (.err e)
        | none => some (.err e)⟩

/-- CatchOnly of try_catch.go: run the (possibly nil) function with `defer
RecOnly` around it on a sink that starts at nil; when the handler returns
normally the final sink is returned, and when it re-panics the panic
escapes CatchOnly itself (the named return value is lost). -/
def CatchOnly (test : Option (GoError → Bool)) (f : Option (Outcome Unit)) :
    Outcome (Option GoError) :=
  match RecOnly test (payloadOf (runBody f)) none with
  | ⟨snk, none⟩ => .ret snk
  | ⟨_, some q⟩ => .panicked q

/-- Ignore of try_defer.go: classify the recovered payload; return
normally when the error is non-nil and the test function is non-nil and
accepts it; otherwise re-raise via To (a no-op on nil). -/
def Ignore (test : Option (GoError → Bool)) (p : Payload) : Outcome Unit :=
  match Err p with
  | none => To none
  | some e =>
      match test with
      | some t => if t e then .ret () else To (some e)
      | none => To (some e)

/-- Ignoring of try_catch.go: run the (possibly nil) function with `defer
Ignore(test)` around it. -/
def Ignoring (test : Option (GoError → Bool)) (f : Option (Outcome Unit)) : Outcome Unit :=
  Ignore test (payloadOf (runBody f))

/-- Trans of try_defer.go: classify the recovered payload; when both the
error and the transformer are non-nil, replace the error by the
transformer's result; then re-raise via To (a nil result suppresses). -/
def Trans (fn : Option (GoError → Option GoError)) (p : Payload) : Outcome Unit :=
  let err := Err p
  To (match err, fn with
      | some e, some f => f e
      | _, _ => err)

/-- WithTrans of try_catch.go: run the (possibly nil) function with `defer
Trans(fn)` around it. -/
def WithTrans (fn : Option (GoError → Option GoError)) (f : Option (Outcome Unit)) :
    Outcome Unit :=
  Trans fn (payloadOf (runBody f))

/-- Detail of try_defer.go: classify the recovered payload, wrap it with
the message via `errors.WithMessage` (nil stays nil), and re-raise via To. -/
def Detail (msg : String) (p : Payload) : Outcome Unit :=
  To (errorsWithMessage (Err p) msg)

/-- RecWithMessage of try_defer.go (the current version, lines 140 to 145):
classify the recovered payload; only on a non-nil error write
`errors.WithMessage(err, msg)` to the sink; on a nil error the sink is not
touched. -/
def RecWithMessage (msg : String) (p : Payload) (sink : Option GoError) : Option GoError :=
  match Err p with
  | none => sink
  | some e => some (.withMessage msg e)

/-- maybeSet of try_util.go: overwrite the sink only with a non-nil error. -/
def maybeSet (sink : Option GoError) (err : Option GoError) : Option GoError :=
  match err with
  | none => sink
  | some e => some e

/-- WithMessage of try_defer.go, the deferred wrapper: a non-nil sink value
is wrapped with the message, a nil one is left alone. -/
def WithMessage (sink : Option GoError) (msg : String) : Option GoError :=
  match sink with
  | none => none
  | some e => some (.withMessage msg e)

/-- RecWithMessage as defined in the older try_rec.go (lines 82 to 85):
`maybeSet(err, Err(recover()))` followed by `WithMessage(err, msg)`. Unlike
the try_defer.go version, the final WithMessage runs unconditionally, so an
error already in the sink from a normal return gets wrapped too. -/
def recWithMessageOld (msg : String) (p : Payload) (sink : Option GoError) :
    Option GoError :=
  WithMessage (maybeSet sink (Err p)) msg

/-- Model of a Go channel of errors: capacity, buffered contents, and
whether some receiver is currently blocked receiving on it. -/
structure GoChan : Type where
  cap : Nat
  buf : List GoError
  recvReady : Bool
  deriving DecidableEq, Repr

/-- Model of the immediate completion of a send on a Go channel: the send
can complete at once iff a receiver is waiting (direct hand-off) or buffer
space remains; otherwise a bare send would block, signalled here by none. -/
def chanSendNow (ch : GoChan) (e : GoError) : Option GoChan :=
  if ch.recvReady then some ch
  else if ch.buf.length < ch.cap then some ⟨ch.cap, ch.buf ++ [e], ch.recvReady⟩
  else none

/-- Model of `select` with one send case and a default case, the shape used
by maybeSend and RecChan: take the send if it can complete immediately,
otherwise take the default branch; by the semantics of select with a
default, this never blocks, hence a total function. The boolean reports
whether the value was delivered. -/
def selectSendDefault (ch : GoChan) (e : GoError) : GoChan × Bool :=
  match chanSendNow ch e with
  | some ch2 => (ch2, true)
  | none => (ch, false)

/-- maybeSend of try_util.go: on a non-nil error, a non-blocking
select-send with a default branch; on nil, nothing happens. -/
def maybeSend (ch : GoChan) (err : Option GoError) : GoChan × Bool :=
  match err with
  | none => (ch, false)
  | some e => selectSendDefault ch e

/-- RecChan of try_defer.go: classify the recovered payload; on a non-nil
error perform the non-blocking select-send into the channel; in every case
return normally (the handler never re-raises). -/
def RecChan (p : Payload) (ch : GoChan) : GoChan × Outcome Unit :=
  match Err p with
  | none => (ch, .ret ())
  | some e => ((selectSendDefault ch e).1, .ret ())

/-- Number of traced links in the cause chain of a nilable error: zero on
nil. -/
def traceCountOpt : Option GoError → Nat
  | none => 0
  | some e => traceCount e

/-- Number of traced links already present in the cause chain carried by a
payload: zero for the nil payload and for a raw non-error payload. -/
def payloadTraceCount : Payload → Nat
  | .nil => 0
  | .err e => traceCount e
  | .raw _ => 0

example : Err .nil = none := by decide
example : Err (.raw "boom") = some (.withStack (.valRaw "boom")) := by decide
example : Err (.err (.foreignLeaf "x" false)) = some (.withStack (.foreignLeaf "x" false)) := by
  decide
example : Err (.err (.withStack (.foreignLeaf "x" false))) =
    some (.withStack (.foreignLeaf "x" false)) := by decide
example : To (some (.foreignLeaf "x" true)) = .panicked (.err (.foreignLeaf "x" true)) := by
  decide
example : Catch (some (.panicked (.raw "boom"))) = some (.withStack (.valRaw "boom")) := by
  decide
example : Catch (some (.ret ())) = none := by decide
example : Catch none = none := by decide
example :
    CatchOnly (some (fun _ => false)) (some (.panicked (.raw "boom"))) =
      .panicked (.err (.withStack (.valRaw "boom"))) := by decide
example :
    CatchOnly (some (fun _ => true)) (some (.panicked (.raw "boom"))) =
      .ret (some (.withStack (.valRaw "boom"))) := by decide
example : RecWithMessage "m" .nil (some (.foreignLeaf "x" false)) =
    some (.foreignLeaf "x" false) := by decide
example : recWithMessageOld "m" .nil (some (.foreignLeaf "x" false)) =
    some (.withMessage "m" (.foreignLeaf "x" false)) := by decide
example : RecChan (.raw "boom") ⟨0, [], false⟩ = (⟨0, [], false⟩, .ret ()) := by decide
example :
    Catch (some (Detail "step X failed" (.err (.foreignLeaf "disk full" false)))) =
      some (.withMessage "step X failed" (.withStack (.foreignLeaf "disk full" false))) := by
  decide
example :
    errorMsg (.withMessage "step X failed" (.withStack (.foreignLeaf "disk full" false))) =
      "step X failed: disk full" := by decide

lemma hasStack_withStackE (e : GoError) : hasStack (withStackE e) = true := by
  unfold withStackE
  cases h : hasStack e
  · simp [h, hasStack]
  · simp [h]

lemma withStackE_of_hasStack (e : GoError) (h : hasStack e = true) : withStackE e = e := by
  unfold withStackE
  simp [h]

lemma withStackE_idem (e : GoError) : withStackE (withStackE e) = withStackE e :=
  withStackE_of_hasStack _ (hasStack_withStackE e)

lemma errorMsg_withStackE (e : GoError) : errorMsg (withStackE e) = errorMsg e := by
  unfold withStackE
  cases h : hasStack e <;> simp [h, errorMsg]

lemma WithStack_some (e : GoError) : WithStack (some e) = some (withStackE e) := by
  unfold WithStack withStackE HasStack errorsWithStack
  cases h : hasStack e <;> simp [h]

lemma Err_err (e : GoError) : Err (.err e) = some (withStackE e) := by
  rw [show Err (.err e) = WithStack (some e) from rfl, WithStack_some]

lemma hasStack_pos (e : GoError) : hasStack e = true ↔ 0 < traceCount e := by
  induction e with
  | foreignLeaf m s => cases s <;> simp [hasStack, traceCount]
  | foreignSelf m s => cases s <;> simp [hasStack, traceCount]
  | foreignWrap m s c ih => cases s <;> simp [hasStack, traceCount, ih]
  | withStack c ih => simp [hasStack, traceCount]
  | withMessage m c ih => simp [hasStack, traceCount, ih]
  | valErr e2 ih => simp [hasStack, traceCount, ih]
  | valRaw t => simp [hasStack, traceCount]

lemma traceCount_withStackE (e : GoError) (h : traceCount e ≤ 1) :
    traceCount (withStackE e) = 1 := by
  unfold withStackE
  cases hs : hasStack e
  · have h0 : traceCount e = 0 := by
      by_contra hne
      have hpos : 0 < traceCount e := Nat.pos_of_ne_zero hne
      rw [(hasStack_pos e).mpr hpos] at hs
      simp at hs
    simp [traceCount, h0]
  · have hpos : 0 < traceCount e := (hasStack_pos e).mp hs
    simp [hs]
    omega

lemma err_hasStack (p : Payload) (e : GoError) (h : Err p = some e) :
    hasStack e = true := by
  cases p with
  | nil => simp [Err] at h
  | err e2 =>
      rw [Err_err] at h
      cases h
      exact hasStack_withStackE e2
  | raw t =>
      simp [Err, errorsWithStack] at h
      rw [← h]
      simp [hasStack]

lemma traceCount_chain (e : GoError) :
    traceCount e = ((chain e).filter (fun x => hasStackMethod x)).length := by
  induction e with
  | foreignLeaf m s => cases s <;> simp [chain, traceCount, hasStackMethod]
  | foreignSelf m s => cases s <;> simp [chain, traceCount, hasStackMethod]
  | foreignWrap m s c ih =>
      cases s <;> (simp [chain, traceCount, hasStackMethod, List.filter_cons, ih]; try omega)
  | withStack c ih =>
      simp [chain, traceCount, hasStackMethod, List.filter_cons, ih]
      omega
  | withMessage m c ih => simp [chain, traceCount, hasStackMethod, List.filter_cons, ih]
  | valErr e2 ih => simp [chain, traceCount, hasStackMethod, List.filter_cons, ih]
  | valRaw t => simp [chain, traceCount, hasStackMethod]

lemma to_some (e : GoError) : To (some e) = .panicked (.err (withStackE e)) := rfl

lemma catch_panicked_err (e : GoError) :
    Catch (some (.panicked (.err e))) = some (withStackE e) := by
  unfold Catch runBody payloadOf Rec
  rw [Err_err]

lemma recWithMessageOld_wraps_normal_return (msg : String) (e : GoError) :
    recWithMessageOld msg .nil (some e) = some (.withMessage msg e) := rfl

/-- C1: trace attachment is idempotent. For every non-nil error, the result
of WithStack satisfies HasStack, applying WithStack twice equals applying
it once, and, whenever the chain started with at most one traced link,
the double application leaves a chain with exactly one traced link. -/
theorem withStack_trace_idempotent (e : GoError) :
    HasStack (WithStack (some e)) = true ∧
    WithStack (WithStack (some e)) = WithStack (some e) ∧
    (traceCount e ≤ 1 → traceCountOpt (WithStack (WithStack (some e))) = 1) := by
  refine ⟨?_, ?_, ?_⟩
  · rw [WithStack_some]
    show hasStack (withStackE e) = true
    exact hasStack_withStackE e
  · rw [WithStack_some, WithStack_some, withStackE_idem]
  · intro h
    rw [WithStack_some, WithStack_some, withStackE_idem]
    show traceCount (withStackE e) = 1
    exact traceCount_withStackE e h

/-- C1 witness: the idempotence facts evaluated at a concrete untraced
error. -/
theorem withStack_trace_idempotent_witness :
    HasStack (WithStack (some (.foreignLeaf "x" false))) = true ∧
    WithStack (WithStack (some (.foreignLeaf "x" false))) =
      WithStack (some (.foreignLeaf "x" false)) ∧
    traceCountOpt (WithStack (WithStack (some (.foreignLeaf "x" false)))) = 1 :=
  ⟨(withStack_trace_idempotent (.foreignLeaf "x" false)).1,
   (withStack_trace_idempotent (.foreignLeaf "x" false)).2.1,
   (withStack_trace_idempotent (.foreignLeaf "x" false)).2.2 (by decide)⟩

/-- C2 counterexample: the claim fails as stated. The payload
`errors.WithStack(errors.New("x"))` (a stack node around an error that
already has a StackTrace method) is returned by Err unchanged, and its
cause chain carries two traced links, not at most one. -/
theorem err_two_traces_counterexample :
    Err (.err (.withStack (.foreignLeaf "x" true))) =
      some (.withStack (.foreignLeaf "x" true)) ∧
    1 < traceCountOpt (Err (.err (.withStack (.foreignLeaf "x" true)))) := by
  constructor
  · decide
  · decide

/-- C2 (amended): for every payload whose own cause chain carries at most
one traced link, Err returns nil exactly on the nil payload, and otherwise
an error whose finite (hence acyclic) cause chain carries exactly one
traced link; in particular Err never attaches a second trace to a chain
that already has one. -/
theorem err_single_trace (p : Payload) (h : payloadTraceCount p ≤ 1) :
    (p = .nil → Err p = none) ∧
    (p ≠ .nil → ∃ e, Err p = some e ∧ traceCount e = 1) := by
  cases p with
  | nil => exact ⟨fun _ => rfl, fun hne => absurd rfl hne⟩
  | err e =>
      exact ⟨fun h2 => Payload.noConfusion h2,
        fun _ => ⟨withStackE e, Err_err e, traceCount_withStackE e h⟩⟩
  | raw t =>
      exact ⟨fun h2 => Payload.noConfusion h2,
        fun _ => ⟨.withStack (.valRaw t), rfl, by simp [traceCount]⟩⟩

/-- C2 witness: the amended statement evaluated at the nil payload and at a
Val value boxing an error that already carries a trace. -/
theorem err_single_trace_witness :
    Err .nil = none ∧
    ∃ e, Err (.err (.valErr (.withStack (.foreignLeaf "x" false)))) = some e ∧
      traceCount e = 1 :=
  ⟨(err_single_trace .nil (by decide)).1 rfl,
   (err_single_trace (.err (.valErr (.withStack (.foreignLeaf "x" false)))) (by decide)).2
     (by decide)⟩

/-- C3: Err on nil returns nil and constructs no error; Err on an error
payload keeps the rendered message exactly, returns the error unchanged
when its chain already has a trace, and otherwise returns a single new
stack node whose cause chain extends the original chain by that one node. -/
theorem err_classify (e : GoError) :
    Err .nil = none ∧
    Err (.err e) = some (withStackE e) ∧
    errorMsg (withStackE e) = errorMsg e ∧
    (hasStack e = true → withStackE e = e) ∧
    (hasStack e = false →
      withStackE e = .withStack e ∧ chain (withStackE e) = .withStack e :: chain e) := by
  refine ⟨rfl, Err_err e, errorMsg_withStackE e, withStackE_of_hasStack e, fun h => ?_⟩
  have h2 : withStackE e = .withStack e := by
    unfold withStackE
    simp [h]
  exact ⟨h2, by rw [h2]; rfl⟩

/-- C3 witness: the classification facts evaluated at a traced and at an
untraced concrete error. -/
theorem err_classify_witness :
    Err .nil = none ∧
    withStackE (.foreignLeaf "x" true) = .foreignLeaf "x" true ∧
    withStackE (.foreignLeaf "x" false) = .withStack (.foreignLeaf "x" false) ∧
    chain (withStackE (.foreignLeaf "x" false)) =
      .withStack (.foreignLeaf "x" false) :: chain (.foreignLeaf "x" false) :=
  ⟨(err_classify (.foreignLeaf "x" true)).1,
   (err_classify (.foreignLeaf "x" true)).2.2.2.1 rfl,
   ((err_classify (.foreignLeaf "x" false)).2.2.2.2 rfl).1,
   ((err_classify (.foreignLeaf "x" false)).2.2.2.2 rfl).2⟩

/-- C4: Catch returns nil when the operation is nil or completes without
panicking, and when the operation panics it returns exactly the classified
error, which carries a trace whenever the panic payload was non-nil. -/
theorem catch_spec (p : Payload) :
    Catch none = none ∧
    Catch (some (.ret ())) = none ∧
    Catch (some (.panicked p)) = Err p ∧
    HasStack (Err p) = !(p.isNil) := by
  refine ⟨rfl, rfl, ?_, ?_⟩
  · unfold Catch runBody payloadOf Rec
    cases h : Err p <;> simp
  · cases p with
    | nil => rfl
    | err e =>
        rw [Err_err]
        show hasStack (withStackE e) = true
        exact hasStack_withStackE e
    | raw t => rfl

/-- C5: CatchOnly with a predicate, around an operation panicking with a
payload classified as some error: the error is written to the sink; when
the predicate accepts it, CatchOnly returns it; when the predicate rejects
it, the same classified error re-escapes CatchOnly as a panic and an
enclosing Catch obtains exactly that error, content unchanged. -/
theorem catchOnly_filter (pred : GoError → Bool) (p : Payload) (e : GoError)
    (h : Err p = some e) :
    (RecOnly (some pred) p none).sink = some e ∧
    (pred e = true → CatchOnly (some pred) (some (.panicked p)) = .ret (some e)) ∧
    (pred e = false →
      CatchOnly (some pred) (some (.panicked p)) = .panicked (.err e) ∧
      Catch (some (outcomeUnit (CatchOnly (some pred) (some (.panicked p))))) = some e) := by
  have hrec : RecOnly (some pred) p none =
      ⟨some e, if pred e then none else some (.err e)⟩ := by
    unfold RecOnly
    rw [h]
  have hstk : hasStack e = true := err_hasStack p e h
  have hco : CatchOnly (some pred) (some (.panicked p)) =
      match (⟨some e, if pred e then none else some (.err e)⟩ : RecResult) with
      | ⟨snk, none⟩ => .ret snk
      | ⟨_, some q⟩ => .panicked q := by
    unfold CatchOnly runBody payloadOf
    rw [hrec]
  refine ⟨by rw [hrec], fun hp => ?_, fun hp => ?_⟩
  · rw [hco, hp]
    rfl
  · have hpan : CatchOnly (some pred) (some (.panicked p)) = .panicked (.err e) := by
      rw [hco, hp]
      rfl
    refine ⟨hpan, ?_⟩
    rw [hpan]
    show Catch (some (.panicked (.err e))) = some e
    rw [catch_panicked_err, withStackE_of_hasStack e hstk]

/-- C5 witness: the filter behavior evaluated at a concrete raw panic
payload, once with an accepting predicate and once with a rejecting one. -/
theorem catchOnly_filter_witness :
    CatchOnly (some (fun e => errorMsg e == "boom")) (some (.panicked (.raw "boom"))) =
      .ret (some (.withStack (.valRaw "boom"))) ∧
    CatchOnly (some (fun _ => false)) (some (.panicked (.raw "boom"))) =
      .panicked (.err (.withStack (.valRaw "boom"))) ∧
    Catch (some (outcomeUnit
        (CatchOnly (some (fun _ => false)) (some (.panicked (.raw "boom")))))) =
      some (.withStack (.valRaw "boom")) :=
  ⟨(catchOnly_filter (fun e => errorMsg e == "boom") (.raw "boom")
      (.withStack (.valRaw "boom")) rfl).2.1 (by decide),
   ((catchOnly_filter (fun _ => false) (.raw "boom")
      (.withStack (.valRaw "boom")) rfl).2.2 rfl).1,
   ((catchOnly_filter (fun _ => false) (.raw "boom")
      (.withStack (.valRaw "boom")) rfl).2.2 rfl).2⟩

/-- C6: Err on a non-nil non-error payload yields the payload wrapped in
Val under a fresh stack node; its rendered message is exactly the textual
form of the payload, and the result carries a trace. -/
theorem err_raw_payload (text : String) :
    Err (.raw text) = some (.withStack (.valRaw text)) ∧
    errorMsg (.withStack (.valRaw text)) = text ∧
    hasStack (.withStack (.valRaw text)) = true :=
  ⟨rfl, rfl, rfl⟩

/-- C7: RecWithMessage of try_defer.go is a no-op when recover yields nil:
whatever the sink already holds, including an error stored by a normal
return, is left exactly unchanged and in particular is not wrapped with
the message. -/
theorem recWithMessage_noop_on_normal_return (msg : String) (sink : Option GoError) :
    RecWithMessage msg .nil sink = sink := rfl

/-- C8: a base error whose message renders as "disk full", raised under a
deferred Detail with message "step X failed", is caught by an enclosing
Catch as a withMessage wrapper whose rendered message is exactly
"step X failed: disk full". -/
theorem detail_prepends_message (e : GoError) (h : errorMsg e = "disk full") :
    Catch (some (Detail "step X failed" (.err e))) =
      some (.withMessage "step X failed" (withStackE e)) ∧
    errorMsg (.withMessage "step X failed" (withStackE e)) = "step X failed: disk full" := by
  have hy : hasStack (GoError.withMessage "step X failed" (withStackE e)) = true := by
    show hasStack (withStackE e) = true
    exact hasStack_withStackE e
  constructor
  · show Catch (some (To (errorsWithMessage (Err (.err e)) "step X failed"))) = _
    rw [Err_err]
    show Catch (some (To (some (.withMessage "step X failed" (withStackE e))))) = _
    rw [to_some, withStackE_of_hasStack _ hy, catch_panicked_err,
      withStackE_of_hasStack _ hy]
  · show "step X failed" ++ ": " ++ errorMsg (withStackE e) = _
    rw [errorMsg_withStackE, h]
    decide

/-- C8 witness: the detail scenario evaluated at a concrete untraced base
error with message "disk full". -/
theorem detail_prepends_message_witness :
    Catch (some (Detail "step X failed" (.err (.foreignLeaf "disk full" false)))) =
      some (.withMessage "step X failed" (withStackE (.foreignLeaf "disk full" false))) ∧
    errorMsg (.withMessage "step X failed" (withStackE (.foreignLeaf "disk full" false))) =
      "step X failed: disk full" :=
  detail_prepends_message (.foreignLeaf "disk full" false) rfl

/-- C9: RecChan on a zero-capacity channel with no waiting receiver
returns normally for every recovered payload, never re-raises, and leaves
the channel unchanged; the underlying select-with-default send reports the
error as dropped rather than blocking. -/
theorem recChan_nonblocking (p : Payload) (e : GoError) :
    RecChan p ⟨0, [], false⟩ = (⟨0, [], false⟩, .ret ()) ∧
    maybeSend ⟨0, [], false⟩ (some e) = (⟨0, [], false⟩, false) := by
  constructor
  · unfold RecChan
    cases h : Err p <;> simp [selectSendDefault, chanSendNow]
  · rfl

/-- C10: every callable-wrapping combinator treats a nil operation as a
successful no-op: Catch returns nil, CatchOnly returns nil for every test
function (so no test is ever consulted), and Ignoring and WithTrans return
normally without raising for every test and transformer. -/
theorem nil_operation_noop :
    Catch none = none ∧
    (∀ test : Option (GoError → Bool), CatchOnly test none = .ret none) ∧
    (∀ test : Option (GoError → Bool), Ignoring test none = .ret ()) ∧
    (∀ fn : Option (GoError → Option GoError), WithTrans fn none = .ret ()) := by
  refine ⟨rfl, fun test => rfl, fun test => rfl, fun fn => ?_⟩
  cases fn <;> rfl

end Try
